import Mathlib

/-!
Verification of the mcp-to-ts adapter (src/index.ts).

The adapter turns an MCP toolset (a record of tool definitions) into
metadata records and callable wrappers that validate their arguments
against the tool's declared input schema before invoking the tool's
execute function.

Embedding conventions:
* JavaScript runtime values that flow through validation are modelled by
  the inductive `JsonVal`.
* Thrown JavaScript errors are modelled by `JsError`; a fallible
  computation returns `Except JsError`.
* The module-global Ajv instance and its identity-keyed `WeakMap`
  validator cache are modelled by explicit state passing (`AjvState`);
  JavaScript object identity of a resolved schema is modelled by a
  numeric `id` field.  `compileCount` instruments how many times
  `ajv.compile` has been invoked.
* External collaborators (the `ai` package's `asSchema` and the Ajv
  compiler) are parameters of the functions that call them.
* A wrapper closure is defunctionalized as `ToolWrapper`; invoking it is
  `runWrapper`, whose result also records the trace of `execute`
  invocations the call performed.
-/

namespace McpToTs

/-- JSON-like JavaScript values: the arguments, schema representations and
Ajv error objects that flow through the adapter. -/
inductive JsonVal where
  | str (s : String)
  | num (n : Int)
  | bool (b : Bool)
  | nullV
  | obj (fields : List (String × JsonVal))
  | arr (items : List JsonVal)

mutual

/-- Modelled from the external JavaScript runtime: JSON.stringify on the
values of `JsonVal` (string escapes elided), used only to render the
message of a type-validation error. -/
def JsonVal.render : JsonVal → String
  | .str s => "\x22" ++ s ++ "\x22"
  | .num n => toString n
  | .bool b => if b then "true" else "false"
  | .nullV => "null"
  | .obj fields => "\x7b" ++ renderFields fields ++ "\x7d"
  | .arr items => "[" ++ renderItems items ++ "]"

/-- Renders the comma-separated fields of a JSON object. -/
def renderFields : List (String × JsonVal) → String
  | [] => ""
  | [(k, v)] => "\x22" ++ k ++ "\x22:" ++ v.render
  | (k, v) :: rest => "\x22" ++ k ++ "\x22:" ++ v.render ++ "," ++ renderFields rest

/-- Renders the comma-separated items of a JSON array. -/
def renderItems : List JsonVal → String
  | [] => ""
  | [v] => v.render
  | v :: rest => v.render ++ "," ++ renderItems rest

end

/-- Thrown JavaScript errors: either a generic `Error` with a message, or
the `ai` package's `TypeValidationError` carrying the rejected value and
the original cause. -/
inductive JsError where
  | error (message : String)
  | typeValidation (value : JsonVal) (cause : JsError)

/-- Modelled from the external `ai` package: the `message` property of an
error.  A `TypeValidationError`'s message embeds the stringified rejected
value and the cause's message. -/
def JsError.message : JsError → String
  | .error m => m
  | .typeValidation value cause =>
      "Type validation failed: Value: " ++ value.render ++
        ". Error message: " ++ cause.message

/-- Modelled from the external `ai` package: `TypeValidationError.wrap`
builds a typed validation error from the rejected value and the failure
cause. -/
def TypeValidationError.wrap (value : JsonVal) (cause : JsError) : JsError :=
  .typeValidation value cause

/-- The JavaScript-observable shape of a candidate input-schema value, as
inspected by `isFlexibleSchema`: a callable value, `null`, a value whose
typeof is neither "object" nor "function", or a non-null object together
with its property keys. -/
inductive SchemaShapeVal where
  | callable
  | nullValue
  | primitive
  | objectVal (keys : List String)
deriving DecidableEq

/-- Embeds `isFlexibleSchema` (src/index.ts:48-59): a value is a supported
flexible schema iff it is callable, or a non-null object that either
carries the "~standard" marker or has both "jsonSchema" and "validate"
properties. -/
def isFlexibleSchema : SchemaShapeVal → Bool
  | .callable => true
  | .nullValue => false
  | .primitive => false
  | .objectVal keys =>
      if keys.contains "~standard" then true
      else keys.contains "jsonSchema" && keys.contains "validate"

/-- Embeds `ensureFlexibleSchema` (src/index.ts:61-66): returns the value
unchanged when it is a supported schema, otherwise throws. -/
def ensureFlexibleSchema (value : SchemaShapeVal) : Except JsError SchemaShapeVal :=
  if isFlexibleSchema value then .ok value
  else .error (.error "Tool input schema is not a supported schema.")

/-- The validation result shape used by resolved schemas
(src/index.ts:44-46). -/
inductive ValidationResult where
  | success (value : JsonVal)
  | failure (error : JsError)

/-- A schema's validate operation: it may itself throw. -/
abbrev ValidateFn := JsonVal → Except JsError ValidationResult

/-- A resolved schema handle as produced by the external `asSchema`: a JSON
Schema representation and an optional built-in validate operation.  The
`id` field models JavaScript object identity (the key of the `WeakMap`
validator cache). -/
structure Schema where
  id : Nat
  jsonSchema : JsonVal
  validate : Option ValidateFn

/-- The outcome of invoking an Ajv validator: a boolean, or a non-boolean
(thenable) outcome produced by asynchronous validation. -/
inductive AjvOutcome where
  | bool (b : Bool)
  | promiseLike

/-- A compiled Ajv validator: its outcome on each input, and the value of
its `errors` property immediately after validating that input. -/
structure AjvValidator where
  run : JsonVal → AjvOutcome
  errors : JsonVal → JsonVal

/-- The module-global mutable state of src/index.ts:18-19: the
identity-keyed validator cache, plus an instrumentation counter of how
many times `ajv.compile` has been invoked. -/
structure AjvState where
  cache : List (Nat × AjvValidator)
  compileCount : Nat

/-- Models `Reflect.get` on an object's own properties: the value bound to
the first occurrence of the key. -/
def reflectGet : List (String × JsonVal) → String → Option JsonVal
  | [], _ => none
  | (k, v) :: rest, key => if k = key then some v else reflectGet rest key

/-- Embeds `readOptionalString` (src/index.ts:68-80): reads a property of
a non-null object and returns it only when it is a string. -/
def readOptionalString (value : JsonVal) (key : String) : Option String :=
  match value with
  | .obj fields =>
      match reflectGet fields key with
      | some (.str s) => some s
      | _ => none
  | _ => none

/-- Embeds the indexed `errors.map` callback of `formatAjvErrors`
(src/index.ts:86-99), producing one line per Ajv error object.  The label
is the error's `instancePath` (falling back to `dataPath`) when that is a
non-empty string, else a positional "error N" label; the text is the
error's `message` when that is a non-empty string, else "invalid input". -/
def formatAjvErrorLines (index : Nat) : List JsonVal → List String
  | [] => []
  | e :: rest =>
      (let message := readOptionalString e "message"
       let instancePath :=
         (readOptionalString e "instancePath").orElse
           (fun _ => readOptionalString e "dataPath")
       let label :=
         match instancePath with
         | some p => if p.length > 0 then p else "error " ++ toString (index + 1)
         | none => "error " ++ toString (index + 1)
       match message with
       | some m => if m.length > 0 then label ++ ": " ++ m else label ++ ": invalid input"
       | none => label ++ ": invalid input") :: formatAjvErrorLines (index + 1) rest

/-- Embeds `formatAjvErrors` (src/index.ts:82-101): a fixed message when
the errors value is not a non-empty array, otherwise the per-error lines
joined with "; ". -/
def formatAjvErrors (errors : JsonVal) : String :=
  match errors with
  | .arr errs =>
      if errs.isEmpty then "Input did not match the expected schema."
      else String.intercalate "; " (formatAjvErrorLines 0 errs)
  | _ => "Input did not match the expected schema."

/-- Embeds `getAjvValidator` (src/index.ts:103-114): returns the cached
validator for the schema's identity when present; otherwise compiles the
schema's JSON representation, stores the result in the cache and returns
it.  `compile` is the external `ajv.compile`. -/
def getAjvValidator (compile : JsonVal → AjvValidator) (schema : Schema)
    (st : AjvState) : AjvValidator × AjvState :=
  match st.cache.lookup schema.id with
  | some cached => (cached, st)
  | none =>
      let validator := compile schema.jsonSchema
      (validator,
       { cache := (schema.id, validator) :: st.cache,
         compileCount := st.compileCount + 1 })

/-- Embeds `ensureSyncValidation` (src/index.ts:116-125): invokes the
validator and throws when the outcome is not a boolean. -/
def ensureSyncValidation (validator : AjvValidator) (value : JsonVal) :
    Except JsError Bool :=
  match validator.run value with
  | .bool b => .ok b
  | .promiseLike => .error (.error "Async JSON schema validation is not supported.")

/-- Embeds the `validate` closure built by `buildValidatedSchema`
(src/index.ts:135-141) around a compiled Ajv validator. -/
def ajvValidate (validator : AjvValidator) : ValidateFn := fun value =>
  match ensureSyncValidation validator value with
  | .error e => .error e
  | .ok true => .ok (.success value)
  | .ok false => .ok (.failure (.error (formatAjvErrors (validator.errors value))))

/-- Embeds `buildValidatedSchema` (src/index.ts:127-146): resolves the
flexible schema through the external `asSchema` (the `asSchemaF`
parameter), returns it unchanged when it already exposes a validate
operation, and otherwise attaches a validate operation backed by the
(cached) compiled Ajv validator. -/
def buildValidatedSchema (compile : JsonVal → AjvValidator)
    (asSchemaF : SchemaShapeVal → Schema) (schema : SchemaShapeVal)
    (st : AjvState) : Schema × AjvState :=
  let resolved := asSchemaF schema
  match resolved.validate with
  | some _ => (resolved, st)
  | none =>
      let r := getAjvValidator compile resolved st
      ({ resolved with validate := some (ajvValidate r.1) }, r.2)

/-- Embeds `validateInput` (src/index.ts:148-160): throws when the schema
has no validate operation; otherwise invokes it, returns the validated
value on success and throws a wrapped `TypeValidationError` on failure. -/
def validateInput (value : JsonVal) (schema : Schema) : Except JsError JsonVal :=
  match schema.validate with
  | none => .error (.error "Input schema does not provide validation.")
  | some validate =>
      match validate value with
      | .error e => .error e
      | .ok (.success v) => .ok v
      | .ok (.failure cause) => .error (TypeValidationError.wrap value cause)

/-- A conversation message; its structure is irrelevant to the adapter. -/
abbrev ModelMessage := JsonVal

/-- The execution-options object handed to a tool's execute function. -/
structure ToolExecutionOptions where
  toolCallId : String
  messages : List ModelMessage

/-- Embeds `createExecutionOptions` (src/index.ts:162-168). -/
def createExecutionOptions (toolName : String) : ToolExecutionOptions :=
  { toolCallId := "mcp:" ++ toolName, messages := [] }

/-- A tool definition from an MCP toolset (src/index.ts:32-40): optional
description and title, an opaque input-schema value, and an optional
execute function. -/
structure McpToolDefinition where
  description : Option String
  title : Option String
  inputSchema : SchemaShapeVal
  execute : Option (JsonVal → ToolExecutionOptions → JsonVal)

/-- A toolset in enumeration order.  An entry whose second component is
`none` models a key bound to a falsy value. -/
abbrev McpToolSet := List (String × Option McpToolDefinition)

/-- The defunctionalized closure returned by `createToolWrapper`
(src/index.ts:177-185): the captured tool name, tool definition and
validated schema. -/
structure ToolWrapper where
  toolName : String
  tool : McpToolDefinition
  schema : Schema

/-- The observable outcome of invoking a wrapper once: the value it
resolves with (or the error it rejects with), together with the trace of
`execute` invocations the call performed, in order. -/
structure WrapperResult where
  result : Except JsError JsonVal
  calls : List (JsonVal × ToolExecutionOptions)

/-- Embeds the wrapper body of `createToolWrapper` (src/index.ts:177-185):
validate the argument, then fail if the tool has no execute function, else
invoke execute with the validated value and fresh execution options and
resolve with its result. -/
def runWrapper (w : ToolWrapper) (args : JsonVal) : WrapperResult :=
  match validateInput args w.schema with
  | .error e => { result := .error e, calls := [] }
  | .ok validated =>
      match w.tool.execute with
      | none =>
          { result := .error (.error ("MCP tool \x22" ++ w.toolName ++
              "\x22 does not have an execute function.")),
            calls := [] }
      | some exec =>
          let options := createExecutionOptions w.toolName
          { result := .ok (exec validated options), calls := [(validated, options)] }

/-- Embeds `createToolWrapper` (src/index.ts:170-186): ensures the tool's
input schema is supported, builds the validated schema, and returns the
wrapper closure. -/
def createToolWrapper (compile : JsonVal → AjvValidator)
    (asSchemaF : SchemaShapeVal → Schema) (toolName : String)
    (tool : McpToolDefinition) (st : AjvState) :
    Except JsError (ToolWrapper × AjvState) :=
  match ensureFlexibleSchema tool.inputSchema with
  | .error e => .error e
  | .ok flexible =>
      let r := buildValidatedSchema compile asSchemaF flexible st
      .ok ({ toolName := toolName, tool := tool, schema := r.1 }, r.2)

/-- Embeds `createMcpToolFunctions` (src/index.ts:188-200): iterates the
toolset's keys in enumeration order, skips falsy entries, builds a wrapper
per present entry, and propagates the first construction error. -/
def createMcpToolFunctions (compile : JsonVal → AjvValidator)
    (asSchemaF : SchemaShapeVal → Schema) :
    McpToolSet → AjvState → Except JsError (List (String × ToolWrapper) × AjvState)
  | [], st => .ok ([], st)
  | (_, none) :: rest, st => createMcpToolFunctions compile asSchemaF rest st
  | (toolName, some tool) :: rest, st =>
      match createToolWrapper compile asSchemaF toolName tool st with
      | .error e => .error e
      | .ok (w, st') =>
          match createMcpToolFunctions compile asSchemaF rest st' with
          | .error e => .error e
          | .ok (ws, st'') => .ok ((toolName, w) :: ws, st'')

/-- A tool metadata record (src/index.ts:21-26). -/
structure McpToolInfo where
  name : String
  description : Option String
  title : Option String
  inputSchema : JsonVal

/-- Embeds `listMcpToolsFromToolSet` (src/index.ts:202-221): iterates the
toolset's keys in enumeration order, skips falsy entries, and produces one
metadata record per present entry from its resolved schema. -/
def listMcpToolsFromToolSet (asSchemaF : SchemaShapeVal → Schema) :
    McpToolSet → Except JsError (List McpToolInfo)
  | [] => .ok []
  | (_, none) :: rest => listMcpToolsFromToolSet asSchemaF rest
  | (toolName, some tool) :: rest =>
      match ensureFlexibleSchema tool.inputSchema with
      | .error e => .error e
      | .ok flexible =>
          match listMcpToolsFromToolSet asSchemaF rest with
          | .error e => .error e
          | .ok infos =>
              .ok ({ name := toolName, description := tool.description,
                     title := tool.title,
                     inputSchema := (asSchemaF flexible).jsonSchema } :: infos)

/-- The metadata record `listMcpToolsFromToolSet` builds for one present
toolset entry. -/
def toolInfoOf (asSchemaF : SchemaShapeVal → Schema) (toolName : String)
    (tool : McpToolDefinition) : McpToolInfo :=
  { name := toolName, description := tool.description, title := tool.title,
    inputSchema := (asSchemaF tool.inputSchema).jsonSchema }

/-- The location part of one formatted violation, as the spec describes
it: the violation's instance path (with the `dataPath` fallback), or a
positional "error N" label when the path is absent or empty. -/
def violationLocation (index : Nat) (e : JsonVal) : String :=
  match (readOptionalString e "instancePath").orElse
      (fun _ => readOptionalString e "dataPath") with
  | some p => if p.length > 0 then p else "error " ++ toString (index + 1)
  | none => "error " ++ toString (index + 1)

/-- The message part of one formatted violation: the violation's message
when it is a non-empty string, else the "invalid input" placeholder. -/
def violationMessageText (e : JsonVal) : String :=
  match readOptionalString e "message" with
  | some m => if m.length > 0 then m else "invalid input"
  | none => "invalid input"

/-- An error message mentions a phrase when the phrase occurs in it as a
contiguous substring. -/
def mentionsText (needle s : String) : Prop := needle.data <:+: s.data

instance (needle s : String) : Decidable (mentionsText needle s) :=
  inferInstanceAs (Decidable (needle.data <:+: s.data))

/-! Concrete fixtures used by the witness theorems: a tool whose JSON
Schema requires a string field "name", the Ajv validator its compilation
yields, and an `asSchema` instance resolving every supported value to that
schema. -/

/-- Fixture: the JSON representation of the greet tool's input schema. -/
def exGreetJson : JsonVal :=
  .obj [("type", .str "object"),
        ("properties", .obj [("name", .obj [("type", .str "string")])]),
        ("required", .arr [.str "name"])]

/-- Fixture: whether a value satisfies the greet schema (an object whose
"name" property is a string). -/
def greetRun : JsonVal → Bool := fun v =>
  match v with
  | .obj fields =>
      match reflectGet fields "name" with
      | some (.str _) => true
      | _ => false
  | _ => false

/-- Fixture: the compiled Ajv validator for the greet schema. -/
def greetValidator : AjvValidator :=
  { run := fun v => .bool (greetRun v),
    errors := fun v =>
      if greetRun v then .nullV
      else .arr [.obj [("instancePath", .str "/name"),
                       ("message", .str "must be string")]] }

/-- Fixture: an Ajv compiler producing the greet validator. -/
def exCompile : JsonVal → AjvValidator := fun _ => greetValidator

/-- Fixture: the resolved greet schema, with no built-in validate
operation. -/
def greetSchema : Schema := { id := 0, jsonSchema := exGreetJson, validate := none }

/-- Fixture: an `asSchema` resolving every flexible schema value to the
greet schema. -/
def exAsSchema : SchemaShapeVal → Schema := fun _ => greetSchema

/-- Fixture: the empty validator-cache state. -/
def exState : AjvState := { cache := [], compileCount := 0 }

/-- Fixture: an execute function echoing its input and call id. -/
def greetExec : JsonVal → ToolExecutionOptions → JsonVal := fun v options =>
  .obj [("input", v), ("callId", .str options.toolCallId)]

/-- Fixture: a tool with an execute function and a supported schema. -/
def greetTool : McpToolDefinition :=
  { description := some "Greets a name", title := none,
    inputSchema := .objectVal ["jsonSchema", "validate"],
    execute := some greetExec }

/-- Fixture: the wrapper `createToolWrapper` builds for the greet tool. -/
def greetWrapper : ToolWrapper :=
  { toolName := "greet", tool := greetTool,
    schema := { greetSchema with validate := some (ajvValidate greetValidator) } }

/-- Fixture: a tool with a supported schema but no execute function. -/
def noopTool : McpToolDefinition :=
  { description := some "Noop", title := none,
    inputSchema := .objectVal ["jsonSchema", "validate"],
    execute := none }

/-- Fixture: the wrapper `createToolWrapper` builds for the noop tool. -/
def noopWrapper : ToolWrapper :=
  { toolName := "noop", tool := noopTool,
    schema := { greetSchema with validate := some (ajvValidate greetValidator) } }

/-- Fixture: an argument satisfying the greet schema. -/
def validInput : JsonVal := .obj [("name", .str "bob")]

/-- Fixture: an argument violating the greet schema (a number where a
string is required). -/
def invalidInput : JsonVal := .obj [("name", .num 123)]

/-- Fixture: a compiled validator whose outcome is never a boolean. -/
def asyncValidator : AjvValidator :=
  { run := fun _ => .promiseLike, errors := fun _ => .nullV }

/-- Fixture: a built-in validate operation accepting exactly strings. -/
def exValidateFn : ValidateFn := fun v =>
  match v with
  | .str _ => .ok (.success v)
  | _ => .ok (.failure (.error "expected a string"))

/-- Fixture: a resolved schema that exposes its own validate operation. -/
def exValidatedSchema : Schema :=
  { id := 7, jsonSchema := exGreetJson, validate := some exValidateFn }

/-- Fixture: an `asSchema` resolving every value to the schema with a
built-in validate operation. -/
def exAsSchemaV : SchemaShapeVal → Schema := fun _ => exValidatedSchema

/-- Fixture: a compiled validator reporting two structural violations,
the second lacking both a usable path and a message. -/
def pairValidator : AjvValidator :=
  { run := fun _ => .bool false,
    errors := fun _ => .arr
      [.obj [("instancePath", .str "/name"), ("message", .str "must be string")],
       .obj [("dataPath", .str ""), ("keyword", .str "required")]] }

/-- Fixture: a tool used by the listing witness. -/
def calcTool : McpToolDefinition :=
  { description := some "Adds values", title := some "Calculator",
    inputSchema := .objectVal ["jsonSchema", "validate"],
    execute := some greetExec }

/-- Fixture: a tool whose input schema has an unsupported shape. -/
def badTool : McpToolDefinition :=
  { description := none, title := none, inputSchema := .nullValue,
    execute := none }

/-- Fixture: a supported input-schema shape (an object exposing both a
JSON representation and a validate operation). -/
def exShape : SchemaShapeVal := .objectVal ["jsonSchema", "validate"]

/-- The three schema shapes the spec says resolution accepts: a callable
value, a non-null object carrying the "~standard" marker, or a non-null
object exposing both "jsonSchema" and "validate" properties. -/
def acceptedSchemaShape (v : SchemaShapeVal) : Prop :=
  v = .callable
    ∨ ∃ keys, v = .objectVal keys
        ∧ ("~standard" ∈ keys ∨ ("jsonSchema" ∈ keys ∧ "validate" ∈ keys))

/-! Theorems. -/

/-- C5: for every schema whose validate operation reports failure,
`validateInput` raises a typed validation error (not a generic `Error`)
wrapping both the rejected value and the original cause; on success it
returns the validated value. -/
theorem c5_validate_input (value : JsonVal) (schema : Schema) (f : ValidateFn)
    (hf : schema.validate = some f) :
    (∀ cause, f value = .ok (.failure cause) →
      validateInput value schema = .error (.typeValidation value cause)
      ∧ ∀ m, JsError.typeValidation value cause ≠ .error m)
    ∧ (∀ v, f value = .ok (.success v) → validateInput value schema = .ok v) := by
  refine ⟨fun cause hc => ⟨?_, fun m h => JsError.noConfusion h⟩, fun v hv => ?_⟩
  · simp [validateInput, hf, hc, TypeValidationError.wrap]
  · simp [validateInput, hf, hv]

/-- Witness for C5 at concrete inputs: a failing validation of the number
3 and a succeeding validation of the string "hi". -/
theorem c5_validate_input_witness :
    (validateInput (.num 3) exValidatedSchema
        = .error (.typeValidation (.num 3) (.error "expected a string"))
      ∧ ∀ m, JsError.typeValidation (.num 3) (.error "expected a string") ≠ .error m)
    ∧ validateInput (.str "hi") exValidatedSchema = .ok (.str "hi") :=
  ⟨(c5_validate_input (.num 3) exValidatedSchema exValidateFn rfl).1
      (.error "expected a string") rfl,
   (c5_validate_input (.str "hi") exValidatedSchema exValidateFn rfl).2
      (.str "hi") rfl⟩

/-- C8: if invoking a compiled validator yields a non-boolean outcome, the
validation wrapper raises the asynchronous-validation error; a boolean
outcome raises no such error and decides success or failure. -/
theorem c8_sync_validation (validator : AjvValidator) (value : JsonVal) :
    (validator.run value = .promiseLike →
      ensureSyncValidation validator value
          = .error (.error "Async JSON schema validation is not supported.")
      ∧ ajvValidate validator value
          = .error (.error "Async JSON schema validation is not supported."))
    ∧ (∀ b, validator.run value = .bool b →
      ensureSyncValidation validator value = .ok b
      ∧ ajvValidate validator value
          = .ok (if b then .success value
                 else .failure (.error (formatAjvErrors (validator.errors value))))) := by
  constructor
  · intro h
    exact ⟨by simp [ensureSyncValidation, h],
           by simp [ajvValidate, ensureSyncValidation, h]⟩
  · intro b h
    refine ⟨by simp [ensureSyncValidation, h], ?_⟩
    cases b <;> simp [ajvValidate, ensureSyncValidation, h]

/-- Witness for C8 at concrete inputs: a validator that always yields a
thenable, and the greet validator accepting a valid argument. -/
theorem c8_sync_validation_witness :
    (ensureSyncValidation asyncValidator .nullV
        = .error (.error "Async JSON schema validation is not supported.")
      ∧ ajvValidate asyncValidator .nullV
        = .error (.error "Async JSON schema validation is not supported."))
    ∧ ensureSyncValidation greetValidator validInput = .ok true :=
  ⟨(c8_sync_validation asyncValidator .nullV).1 rfl,
   ((c8_sync_validation greetValidator validInput).2 true rfl).1⟩

/-- The boolean shape test agrees with the spec's three accepted shapes. -/
lemma isFlexibleSchema_iff (v : SchemaShapeVal) :
    isFlexibleSchema v = true ↔ acceptedSchemaShape v := by
  cases v with
  | callable => simp [isFlexibleSchema, acceptedSchemaShape]
  | nullValue => simp [isFlexibleSchema, acceptedSchemaShape]
  | primitive => simp [isFlexibleSchema, acceptedSchemaShape]
  | objectVal keys =>
      simp only [isFlexibleSchema, acceptedSchemaShape]
      by_cases h1 : "~standard" ∈ keys
      · simp [h1]
      · by_cases h2 : "jsonSchema" ∈ keys <;> by_cases h3 : "validate" ∈ keys <;>
          simp [h1, h2, h3]

/-- C6: schema resolution accepts exactly the three supported shapes,
rejects every other shape with the unsupported-schema error, and returns
the accepted value unchanged. -/
theorem c6_schema_resolution (v : SchemaShapeVal) :
    (ensureFlexibleSchema v = .ok v ↔ acceptedSchemaShape v)
    ∧ (¬ acceptedSchemaShape v →
        ensureFlexibleSchema v
          = .error (.error "Tool input schema is not a supported schema."))
    ∧ (∀ w, ensureFlexibleSchema v = .ok w → w = v) := by
  refine ⟨⟨fun hok => ?_, fun hacc => ?_⟩, fun hnot => ?_, fun w hok => ?_⟩
  · by_cases h : isFlexibleSchema v
    · exact (isFlexibleSchema_iff v).mp h
    · simp [ensureFlexibleSchema, h] at hok
  · simp [ensureFlexibleSchema, (isFlexibleSchema_iff v).mpr hacc]
  · have h : ¬ isFlexibleSchema v = true := fun h =>
      hnot ((isFlexibleSchema_iff v).mp h)
    simp [ensureFlexibleSchema, h]
  · by_cases h : isFlexibleSchema v
    · simp [ensureFlexibleSchema, h] at hok
      exact hok.symm
    · simp [ensureFlexibleSchema, h] at hok

/-- Witness for C6 at concrete shapes: an object with "jsonSchema" and
"validate" is accepted unchanged; null is rejected. -/
theorem c6_schema_resolution_witness :
    ensureFlexibleSchema exShape = .ok exShape
    ∧ ensureFlexibleSchema .nullValue
        = .error (.error "Tool input schema is not a supported schema.") :=
  ⟨(c6_schema_resolution exShape).1.mpr
      (Or.inr ⟨["jsonSchema", "validate"], rfl, Or.inr ⟨by simp, by simp⟩⟩),
   (c6_schema_resolution .nullValue).2.1 (by simp [acceptedSchemaShape])⟩

/-- One step of the per-error formatting: the line for the head error is
its location, a colon, and its message text. -/
lemma formatAjvErrorLines_cons (i : Nat) (e : JsonVal) (rest : List JsonVal) :
    formatAjvErrorLines i (e :: rest) =
      (violationLocation i e ++ ": " ++ violationMessageText e)
        :: formatAjvErrorLines (i + 1) rest := by
  cases hm : readOptionalString e "message" with
  | none =>
      cases hp : (readOptionalString e "instancePath").orElse
          (fun _ => readOptionalString e "dataPath") with
      | none =>
          simp [formatAjvErrorLines, violationLocation, violationMessageText, hm, hp,
            String.append_assoc,
            show (": " ++ "invalid input" : String) = ": invalid input" from rfl]
      | some p =>
          by_cases hl : p.length > 0 <;>
            simp [formatAjvErrorLines, violationLocation, violationMessageText,
              hm, hp, hl, String.append_assoc,
              show (": " ++ "invalid input" : String) = ": invalid input" from rfl]
  | some m =>
      cases hp : (readOptionalString e "instancePath").orElse
          (fun _ => readOptionalString e "dataPath") with
      | none =>
          by_cases hml : m.length > 0 <;>
            simp [formatAjvErrorLines, violationLocation, violationMessageText,
              hm, hp, hml, String.append_assoc,
              show (": " ++ "invalid input" : String) = ": invalid input" from rfl]
      | some p =>
          by_cases hml : m.length > 0 <;> by_cases hl : p.length > 0 <;>
            simp [formatAjvErrorLines, violationLocation, violationMessageText,
              hm, hp, hml, hl, String.append_assoc,
              show (": " ++ "invalid input" : String) = ": invalid input" from rfl]

/-- The per-error formatting equals an indexed map over the error list. -/
lemma formatAjvErrorLines_eq_enumFrom (vs : List JsonVal) : ∀ i : Nat,
    formatAjvErrorLines i vs = (List.enumFrom i vs).map
      (fun p => violationLocation p.1 p.2 ++ ": " ++ violationMessageText p.2) := by
  induction vs with
  | nil => intro i; simp [formatAjvErrorLines]
  | cons e rest ih =>
      intro i
      simp [formatAjvErrorLines_cons, List.enumFrom, ih]

/-- C9: when the compiled validator reports a non-empty list of
violations, the failure result's message is the per-violation strings
(location, colon, message) joined in order with "; ". -/
theorem c9_error_formatting (validator : AjvValidator) (value : JsonVal)
    (vs : List JsonVal) (hrun : validator.run value = .bool false)
    (herrs : validator.errors value = .arr vs) (hne : vs ≠ []) :
    ajvValidate validator value =
      .ok (.failure (.error (String.intercalate "; "
        (vs.enum.map fun p =>
          violationLocation p.1 p.2 ++ ": " ++ violationMessageText p.2)))) := by
  cases vs with
  | nil => exact absurd rfl hne
  | cons e rest =>
      simp [ajvValidate, ensureSyncValidation, hrun, formatAjvErrors, herrs,
        List.enum, formatAjvErrorLines_eq_enumFrom]

/-- Witness for C9: two concrete violations, the second with an empty
path and no message, format to the expected joined message. -/
theorem c9_error_formatting_witness :
    ajvValidate pairValidator .nullV
      = .ok (.failure (.error "/name: must be string; error 2: invalid input")) :=
  c9_error_formatting pairValidator .nullV
    [.obj [("instancePath", .str "/name"), ("message", .str "must be string")],
     .obj [("dataPath", .str ""), ("keyword", .str "required")]]
    rfl rfl (List.cons_ne_nil _ _)

/-- C4: materializing the fallback validator for a schema with no
built-in validate operation compiles once and stores the result in the
identity-keyed cache; a later materialization of the same schema returns
the cached validator with the state (hence the compile count) unchanged;
and a resolved schema that exposes its own validate operation is used
directly, with no compilation and no cache entry. -/
theorem c4_validator_cache (compile : JsonVal → AjvValidator)
    (asSchemaF : SchemaShapeVal → Schema) (sv : SchemaShapeVal) (st : AjvState)
    (hnone : (asSchemaF sv).validate = none)
    (hmiss : st.cache.lookup (asSchemaF sv).id = none) :
    ((buildValidatedSchema compile asSchemaF sv st).2.cache.lookup (asSchemaF sv).id
        = some (compile (asSchemaF sv).jsonSchema)
      ∧ (buildValidatedSchema compile asSchemaF sv st).2.compileCount
          = st.compileCount + 1
      ∧ buildValidatedSchema compile asSchemaF sv
            (buildValidatedSchema compile asSchemaF sv st).2
          = buildValidatedSchema compile asSchemaF sv st)
    ∧ ∀ (asSchemaG : SchemaShapeVal → Schema) (sv' : SchemaShapeVal)
        (st' : AjvState) (f : ValidateFn), (asSchemaG sv').validate = some f →
          buildValidatedSchema compile asSchemaG sv' st' = (asSchemaG sv', st') := by
  constructor
  · simp [buildValidatedSchema, getAjvValidator, hnone, hmiss, List.lookup]
  · intro asSchemaG sv' st' f hf
    simp [buildValidatedSchema, hf]

/-- Witness for C4 at concrete inputs: building the greet schema's
validator from the empty state compiles and caches it, rebuilding reuses
it, and a schema with a built-in validate operation is returned as-is. -/
theorem c4_validator_cache_witness :
    ((buildValidatedSchema exCompile exAsSchema exShape exState).2.cache.lookup
          (exAsSchema exShape).id
        = some (exCompile (exAsSchema exShape).jsonSchema)
      ∧ (buildValidatedSchema exCompile exAsSchema exShape exState).2.compileCount
          = exState.compileCount + 1
      ∧ buildValidatedSchema exCompile exAsSchema exShape
            (buildValidatedSchema exCompile exAsSchema exShape exState).2
          = buildValidatedSchema exCompile exAsSchema exShape exState)
    ∧ buildValidatedSchema exCompile exAsSchemaV exShape exState
        = (exValidatedSchema, exState) :=
  ⟨(c4_validator_cache exCompile exAsSchema exShape exState rfl rfl).1,
   (c4_validator_cache exCompile exAsSchema exShape exState rfl rfl).2
      exAsSchemaV exShape exState exValidateFn rfl⟩

/-- Unfolding `createMcpToolFunctions` at a present entry. -/
lemma createMcpToolFunctions_cons_some (compile : JsonVal → AjvValidator)
    (asSchemaF : SchemaShapeVal → Schema) (nm : String) (tool : McpToolDefinition)
    (rest : McpToolSet) (st : AjvState) :
    createMcpToolFunctions compile asSchemaF ((nm, some tool) :: rest) st =
      match createToolWrapper compile asSchemaF nm tool st with
      | .error e => .error e
      | .ok (w, st') =>
          match createMcpToolFunctions compile asSchemaF rest st' with
          | .error e => .error e
          | .ok (ws, st'') => .ok ((nm, w) :: ws, st'') := rfl

/-- A successfully built wrapper captures the tool name and tool
definition it was built from. -/
lemma createToolWrapper_shape (compile : JsonVal → AjvValidator)
    (asSchemaF : SchemaShapeVal → Schema) (toolName : String)
    (tool : McpToolDefinition) (st : AjvState) (w : ToolWrapper) (st' : AjvState)
    (h : createToolWrapper compile asSchemaF toolName tool st = .ok (w, st')) :
    w.toolName = toolName ∧ w.tool = tool := by
  unfold createToolWrapper at h
  cases he : ensureFlexibleSchema tool.inputSchema with
  | error e => rw [he] at h; exact Except.noConfusion h
  | ok flexible =>
      rw [he] at h
      simp only [Except.ok.injEq, Prod.mk.injEq] at h
      obtain ⟨hw, -⟩ := h
      rw [← hw]
      exact ⟨rfl, rfl⟩

/-- `createToolWrapper` fails with the unsupported-schema error on a tool
whose input schema has an unsupported shape. -/
lemma createToolWrapper_unsupported (compile : JsonVal → AjvValidator)
    (asSchemaF : SchemaShapeVal → Schema) (nm : String) (tool : McpToolDefinition)
    (st : AjvState) (hbad : isFlexibleSchema tool.inputSchema = false) :
    createToolWrapper compile asSchemaF nm tool st
      = .error (.error "Tool input schema is not a supported schema.") := by
  simp [createToolWrapper, ensureFlexibleSchema, hbad]

/-- Every wrapper in a successfully built mapping is keyed by the tool
name it captured. -/
lemma createMcpToolFunctions_mem (compile : JsonVal → AjvValidator)
    (asSchemaF : SchemaShapeVal → Schema) (ts : McpToolSet) :
    ∀ (st : AjvState) (ws : List (String × ToolWrapper)) (st₁ : AjvState)
      (nm : String) (w : ToolWrapper),
      createMcpToolFunctions compile asSchemaF ts st = .ok (ws, st₁) →
      (nm, w) ∈ ws → w.toolName = nm := by
  induction ts with
  | nil =>
      intro st ws st₁ nm w h hm
      simp only [createMcpToolFunctions, Except.ok.injEq, Prod.mk.injEq] at h
      obtain ⟨hws, -⟩ := h
      rw [← hws] at hm
      exact absurd hm (List.not_mem_nil _)
  | cons entry rest ih =>
      intro st ws st₁ nm w h hm
      obtain ⟨name, entry?⟩ := entry
      cases entry? with
      | none => exact ih st ws st₁ nm w h hm
      | some tool =>
          rw [createMcpToolFunctions_cons_some] at h
          cases hw : createToolWrapper compile asSchemaF name tool st with
          | error e => rw [hw] at h; exact Except.noConfusion h
          | ok p =>
              obtain ⟨w₀, st'⟩ := p
              rw [hw] at h
              dsimp only at h
              cases hr : createMcpToolFunctions compile asSchemaF rest st' with
              | error e => rw [hr] at h; exact Except.noConfusion h
              | ok q =>
                  obtain ⟨ws', st''⟩ := q
                  rw [hr] at h
                  simp only [Except.ok.injEq, Prod.mk.injEq] at h
                  obtain ⟨hws, -⟩ := h
                  rw [← hws] at hm
                  rcases List.mem_cons.mp hm with h1 | h1
                  · obtain ⟨hnm, hw0⟩ := Prod.mk.injEq .. ▸ h1
                    rw [hw0, hnm]
                    exact (createToolWrapper_shape compile asSchemaF name tool
                      st w₀ st' hw).1
                  · exact ih st' ws' st'' nm w hr h1

/-- C1: a wrapper built by `createMcpToolFunctions` for a tool with an
execute function, applied to a value its schema's validation accepts,
invokes execute exactly once with the validated value and an
execution-options object whose call id is "mcp:" plus the tool name and
whose message history is empty, and resolves with execute's result
unchanged; applied to a value validation rejects, it rejects with the
typed validation error and never invokes execute. -/
theorem c1_wrapper_execution (compile : JsonVal → AjvValidator)
    (asSchemaF : SchemaShapeVal → Schema) (ts : McpToolSet) (st : AjvState)
    (ws : List (String × ToolWrapper)) (st₁ : AjvState) (nm : String)
    (w : ToolWrapper) (exec : JsonVal → ToolExecutionOptions → JsonVal)
    (f : ValidateFn) (args : JsonVal)
    (hbuild : createMcpToolFunctions compile asSchemaF ts st = .ok (ws, st₁))
    (hmem : (nm, w) ∈ ws)
    (hexec : w.tool.execute = some exec)
    (hf : w.schema.validate = some f) :
    (∀ v, f args = .ok (.success v) →
      runWrapper w args =
        { result := .ok (exec v { toolCallId := "mcp:" ++ nm, messages := [] }),
          calls := [(v, { toolCallId := "mcp:" ++ nm, messages := [] })] })
    ∧ (∀ cause, f args = .ok (.failure cause) →
      runWrapper w args =
        { result := .error (.typeValidation args cause), calls := [] }) := by
  have hname : w.toolName = nm :=
    createMcpToolFunctions_mem compile asSchemaF ts st ws st₁ nm w hbuild hmem
  constructor
  · intro v hv
    simp [runWrapper, validateInput, hf, hv, hexec, createExecutionOptions, hname]
  · intro cause hc
    simp [runWrapper, validateInput, hf, hc, TypeValidationError.wrap]

set_option maxRecDepth 10000 in
/-- Witness for C1: the greet toolset built from the empty state; calling
the wrapper with a valid argument invokes execute once and returns its
result, calling it with an invalid argument rejects with the typed
validation error and performs no execute call. -/
theorem c1_wrapper_execution_witness :
    runWrapper greetWrapper validInput =
      { result := .ok (greetExec validInput
          { toolCallId := "mcp:" ++ "greet", messages := [] }),
        calls := [(validInput, { toolCallId := "mcp:" ++ "greet", messages := [] })] }
    ∧ runWrapper greetWrapper invalidInput =
      { result := .error (.typeValidation invalidInput
          (.error "/name: must be string")), calls := [] } :=
  ⟨(c1_wrapper_execution exCompile exAsSchema [("greet", some greetTool)] exState
      [("greet", greetWrapper)] { cache := [(0, greetValidator)], compileCount := 1 }
      "greet" greetWrapper greetExec (ajvValidate greetValidator) validInput
      rfl (List.mem_cons_self _ _) rfl rfl).1 validInput rfl,
   (c1_wrapper_execution exCompile exAsSchema [("greet", some greetTool)] exState
      [("greet", greetWrapper)] { cache := [(0, greetValidator)], compileCount := 1 }
      "greet" greetWrapper greetExec (ajvValidate greetValidator) invalidInput
      rfl (List.mem_cons_self _ _) rfl rfl).2
      (.error "/name: must be string") rfl⟩

/-- The missing-execute error message always mentions "execute function". -/
lemma mentions_execute_function (nm : String) :
    mentionsText "execute function"
      ("MCP tool \x22" ++ nm ++ "\x22 does not have an execute function.") := by
  refine ⟨("MCP tool \x22" ++ nm ++ "\x22 does not have an ").data, ".".data, ?_⟩
  have hsplit : ("\x22 does not have an execute function." : String)
      = "\x22 does not have an " ++ "execute function" ++ "." := by decide
  rw [hsplit]
  simp [String.data_append, List.append_assoc]

set_option maxRecDepth 40000 in
/-- C2 counterexample: for the noop tool (no execute function), the
wrapper invoked with an argument that violates the schema rejects with a
typed validation error whose message does not mention "execute
function". -/
theorem c2_counterexample :
    createToolWrapper exCompile exAsSchema "noop" noopTool exState
        = .ok (noopWrapper, { cache := [(0, greetValidator)], compileCount := 1 })
    ∧ runWrapper noopWrapper invalidInput
        = { result := .error (.typeValidation invalidInput
              (.error "/name: must be string")), calls := [] }
    ∧ ¬ mentionsText "execute function"
        (JsError.typeValidation invalidInput
          (.error "/name: must be string")).message :=
  ⟨rfl, rfl, by decide⟩

/-- C2 amended: a wrapper for a tool with no execute function rejects on
every invocation and never invokes an execute function; when the argument
passes schema validation the rejection is the missing-execute error,
whose message mentions "execute function", and when the argument fails
validation the rejection is the typed validation error instead. -/
theorem c2_amended_missing_execute (w : ToolWrapper) (args : JsonVal)
    (f : ValidateFn) (hexec : w.tool.execute = none)
    (hf : w.schema.validate = some f) :
    ((runWrapper w args).calls = [] ∧ ∃ e, (runWrapper w args).result = .error e)
    ∧ (∀ v, f args = .ok (.success v) →
        runWrapper w args =
          { result := .error (.error ("MCP tool \x22" ++ w.toolName ++
              "\x22 does not have an execute function.")), calls := [] }
        ∧ mentionsText "execute function"
            (JsError.error ("MCP tool \x22" ++ w.toolName ++
              "\x22 does not have an execute function.")).message)
    ∧ (∀ cause, f args = .ok (.failure cause) →
        runWrapper w args =
          { result := .error (.typeValidation args cause), calls := [] }) := by
  refine ⟨?_, fun v hv => ⟨?_, ?_⟩, fun cause hc => ?_⟩
  · cases hr : f args with
    | error e => simp [runWrapper, validateInput, hf, hr]
    | ok r =>
        cases r with
        | success v => simp [runWrapper, validateInput, hf, hr, hexec]
        | failure cause => simp [runWrapper, validateInput, hf, hr]
  · simp [runWrapper, validateInput, hf, hv, hexec]
  · exact mentions_execute_function w.toolName
  · simp [runWrapper, validateInput, hf, hc, TypeValidationError.wrap]

/-- Witness for the amended C2: the noop wrapper at a valid and an
invalid argument. -/
theorem c2_amended_missing_execute_witness :
    (runWrapper noopWrapper validInput =
        { result := .error (.error ("MCP tool \x22" ++ "noop" ++
            "\x22 does not have an execute function.")), calls := [] }
      ∧ mentionsText "execute function"
          (JsError.error ("MCP tool \x22" ++ "noop" ++
            "\x22 does not have an execute function.")).message)
    ∧ runWrapper noopWrapper invalidInput =
        { result := .error (.typeValidation invalidInput
            (.error "/name: must be string")), calls := [] } :=
  ⟨(c2_amended_missing_execute noopWrapper validInput
      (ajvValidate greetValidator) rfl rfl).2.1 validInput rfl,
   (c2_amended_missing_execute noopWrapper invalidInput
      (ajvValidate greetValidator) rfl rfl).2.2
      (.error "/name: must be string") rfl⟩

/-- C10: validation runs before the missing-execute check: for a tool
without an execute function, an argument that fails validation rejects
with the typed validation error, and the missing-execute error is raised
exactly for arguments that pass validation. -/
theorem c10_validation_before_execute_check (w : ToolWrapper) (args : JsonVal)
    (f : ValidateFn) (hexec : w.tool.execute = none)
    (hf : w.schema.validate = some f) :
    (∀ cause, f args = .ok (.failure cause) →
      runWrapper w args =
        { result := .error (.typeValidation args cause), calls := [] })
    ∧ (∀ v, f args = .ok (.success v) →
      runWrapper w args =
        { result := .error (.error ("MCP tool \x22" ++ w.toolName ++
            "\x22 does not have an execute function.")), calls := [] }) := by
  constructor
  · intro cause hc
    simp [runWrapper, validateInput, hf, hc, TypeValidationError.wrap]
  · intro v hv
    simp [runWrapper, validateInput, hf, hv, hexec]

/-- Witness for C10: the noop wrapper rejects an invalid argument with
the validation error and a valid argument with the missing-execute
error. -/
theorem c10_validation_before_execute_check_witness :
    runWrapper noopWrapper invalidInput =
      { result := .error (.typeValidation invalidInput
          (.error "/name: must be string")), calls := [] }
    ∧ runWrapper noopWrapper validInput =
      { result := .error (.error ("MCP tool \x22" ++ "noop" ++
          "\x22 does not have an execute function.")), calls := [] } :=
  ⟨(c10_validation_before_execute_check noopWrapper invalidInput
      (ajvValidate greetValidator) rfl rfl).1 (.error "/name: must be string") rfl,
   (c10_validation_before_execute_check noopWrapper validInput
      (ajvValidate greetValidator) rfl rfl).2 validInput rfl⟩

/-- Unfolding `listMcpToolsFromToolSet` at a present entry. -/
lemma listMcpToolsFromToolSet_cons_some (asSchemaF : SchemaShapeVal → Schema)
    (nm : String) (tool : McpToolDefinition) (rest : McpToolSet) :
    listMcpToolsFromToolSet asSchemaF ((nm, some tool) :: rest) =
      match ensureFlexibleSchema tool.inputSchema with
      | .error e => .error e
      | .ok flexible =>
          match listMcpToolsFromToolSet asSchemaF rest with
          | .error e => .error e
          | .ok infos =>
              .ok ({ name := nm, description := tool.description,
                     title := tool.title,
                     inputSchema := (asSchemaF flexible).jsonSchema } :: infos) := rfl

/-- On a toolset whose present entries all have supported schemas, the
listing returns one record per present entry, in order. -/
lemma listMcpToolsFromToolSet_ok (asSchemaF : SchemaShapeVal → Schema)
    (ts : McpToolSet)
    (hok : ∀ toolName tool, (toolName, some tool) ∈ ts →
      isFlexibleSchema tool.inputSchema = true) :
    listMcpToolsFromToolSet asSchemaF ts
      = .ok (ts.filterMap fun p => p.2.map fun tool =>
          toolInfoOf asSchemaF p.1 tool) := by
  induction ts with
  | nil => rfl
  | cons entry rest ih =>
      obtain ⟨nm, entry?⟩ := entry
      cases entry? with
      | none =>
          have hrest := ih fun n t hm => hok n t (List.mem_cons_of_mem _ hm)
          simpa [List.filterMap_cons] using hrest
      | some tool =>
          have hflex : isFlexibleSchema tool.inputSchema = true :=
            hok nm tool (List.mem_cons_self _ _)
          have hrest := ih fun n t hm => hok n t (List.mem_cons_of_mem _ hm)
          rw [listMcpToolsFromToolSet_cons_some,
            show ensureFlexibleSchema tool.inputSchema = .ok tool.inputSchema
              from by simp [ensureFlexibleSchema, hflex]]
          dsimp only
          rw [hrest]
          simp [List.filterMap_cons, toolInfoOf]

/-- A falsy entry anywhere in a toolset is skipped by the wrapper
builder. -/
lemma createMcpToolFunctions_skip (compile : JsonVal → AjvValidator)
    (asSchemaF : SchemaShapeVal → Schema) (pre : McpToolSet) (nm : String)
    (post : McpToolSet) : ∀ st : AjvState,
    createMcpToolFunctions compile asSchemaF (pre ++ (nm, none) :: post) st
      = createMcpToolFunctions compile asSchemaF (pre ++ post) st := by
  induction pre with
  | nil => intro st; rfl
  | cons entry rest ih =>
      intro st
      obtain ⟨n, entry?⟩ := entry
      cases entry? with
      | none => exact ih st
      | some tool =>
          rw [List.cons_append, List.cons_append,
            createMcpToolFunctions_cons_some, createMcpToolFunctions_cons_some]
          cases hw : createToolWrapper compile asSchemaF n tool st with
          | error e => rfl
          | ok p =>
              obtain ⟨w, st'⟩ := p
              dsimp only
              rw [ih st']

/-- A falsy entry anywhere in a toolset is skipped by the lister. -/
lemma listMcpToolsFromToolSet_skip (asSchemaF : SchemaShapeVal → Schema)
    (pre : McpToolSet) (nm : String) (post : McpToolSet) :
    listMcpToolsFromToolSet asSchemaF (pre ++ (nm, none) :: post)
      = listMcpToolsFromToolSet asSchemaF (pre ++ post) := by
  induction pre with
  | nil => rfl
  | cons entry rest ih =>
      obtain ⟨n, entry?⟩ := entry
      cases entry? with
      | none => exact ih
      | some tool =>
          rw [List.cons_append, List.cons_append,
            listMcpToolsFromToolSet_cons_some, listMcpToolsFromToolSet_cons_some]
          cases he : ensureFlexibleSchema tool.inputSchema with
          | error e => rfl
          | ok flexible =>
              dsimp only
              rw [ih]

/-- C3: on a toolset whose present entries all have supported schemas,
`listMcpToolsFromToolSet` returns exactly one metadata record per
non-falsy entry, in key enumeration order, with name, description and
title taken from the entry; and in both `listMcpToolsFromToolSet` and
`createMcpToolFunctions` a falsy entry is skipped without producing any
output or error. -/
theorem c3_toolset_enumeration (compile : JsonVal → AjvValidator)
    (asSchemaF : SchemaShapeVal → Schema) (ts : McpToolSet)
    (hok : ∀ toolName tool, (toolName, some tool) ∈ ts →
      isFlexibleSchema tool.inputSchema = true) :
    listMcpToolsFromToolSet asSchemaF ts
      = .ok (ts.filterMap fun p => p.2.map fun tool =>
          toolInfoOf asSchemaF p.1 tool)
    ∧ (∀ (pre : McpToolSet) (nm : String) (post : McpToolSet) (st : AjvState),
        createMcpToolFunctions compile asSchemaF (pre ++ (nm, none) :: post) st
          = createMcpToolFunctions compile asSchemaF (pre ++ post) st)
    ∧ (∀ (pre : McpToolSet) (nm : String) (post : McpToolSet),
        listMcpToolsFromToolSet asSchemaF (pre ++ (nm, none) :: post)
          = listMcpToolsFromToolSet asSchemaF (pre ++ post)) :=
  ⟨listMcpToolsFromToolSet_ok asSchemaF ts hok,
   fun pre nm post st => createMcpToolFunctions_skip compile asSchemaF pre nm post st,
   fun pre nm post => listMcpToolsFromToolSet_skip asSchemaF pre nm post⟩

/-- Witness for C3: a toolset with a present calc entry and a falsy skip
entry lists exactly the calc record, and the falsy entry is skipped by the
wrapper builder. -/
theorem c3_toolset_enumeration_witness :
    listMcpToolsFromToolSet exAsSchema [("calc", some calcTool), ("skip", none)]
      = .ok [toolInfoOf exAsSchema "calc" calcTool]
    ∧ createMcpToolFunctions exCompile exAsSchema
        ([("calc", some calcTool)] ++ ("skip", (none : Option McpToolDefinition)) :: [])
        exState
      = createMcpToolFunctions exCompile exAsSchema
        ([("calc", some calcTool)] ++ []) exState := by
  have hok : ∀ toolName tool,
      (toolName, some tool) ∈
        ([("calc", some calcTool), ("skip", none)] : McpToolSet) →
      isFlexibleSchema tool.inputSchema = true := by
    intro toolName tool hm
    rcases List.mem_cons.mp hm with h | h
    · simp only [Prod.mk.injEq] at h
      rw [Option.some.inj h.2]
      rfl
    · rcases List.mem_cons.mp h with h' | h'
      · simp only [Prod.mk.injEq] at h'
        exact Option.noConfusion h'.2
      · exact absurd h' (List.not_mem_nil _)
  have h := c3_toolset_enumeration exCompile exAsSchema
    [("calc", some calcTool), ("skip", none)] hok
  exact ⟨h.1, h.2.1 [("calc", some calcTool)] "skip" [] exState⟩

/-- C7: if an entry of the toolset has an unsupported schema (so its
wrapper construction raises), `createMcpToolFunctions` propagates the
error and returns no mapping at all, even when all earlier entries were
processed successfully. -/
theorem c7_error_propagation (compile : JsonVal → AjvValidator)
    (asSchemaF : SchemaShapeVal → Schema) (pre : McpToolSet) (nm : String)
    (tool : McpToolDefinition) (post : McpToolSet) (st : AjvState)
    (ws₀ : List (String × ToolWrapper)) (st₀ : AjvState)
    (hpre : createMcpToolFunctions compile asSchemaF pre st = .ok (ws₀, st₀))
    (hbad : isFlexibleSchema tool.inputSchema = false) :
    createMcpToolFunctions compile asSchemaF (pre ++ (nm, some tool) :: post) st
      = .error (.error "Tool input schema is not a supported schema.")
    ∧ ∀ r, createMcpToolFunctions compile asSchemaF
        (pre ++ (nm, some tool) :: post) st ≠ .ok r := by
  have key : ∀ (p : McpToolSet) (s : AjvState)
      (ws : List (String × ToolWrapper)) (s₀ : AjvState),
      createMcpToolFunctions compile asSchemaF p s = .ok (ws, s₀) →
      createMcpToolFunctions compile asSchemaF (p ++ (nm, some tool) :: post) s
        = .error (.error "Tool input schema is not a supported schema.") := by
    intro p
    induction p with
    | nil =>
        intro s ws s₀ h
        rw [List.nil_append, createMcpToolFunctions_cons_some,
          createToolWrapper_unsupported compile asSchemaF nm tool s hbad]
    | cons entry rest ih =>
        intro s ws s₀ h
        obtain ⟨n, entry?⟩ := entry
        cases entry? with
        | none => exact ih s ws s₀ h
        | some t =>
            rw [List.cons_append, createMcpToolFunctions_cons_some]
            rw [createMcpToolFunctions_cons_some] at h
            cases hw : createToolWrapper compile asSchemaF n t s with
            | error e => rw [hw] at h; exact Except.noConfusion h
            | ok q =>
                obtain ⟨w, s'⟩ := q
                rw [hw] at h
                dsimp only at h ⊢
                cases hr : createMcpToolFunctions compile asSchemaF rest s' with
                | error e => rw [hr] at h; exact Except.noConfusion h
                | ok q2 =>
                    obtain ⟨ws', s''⟩ := q2
                    rw [ih s' ws' s'' hr]
  refine ⟨key pre st ws₀ st₀ hpre, fun r hr => ?_⟩
  rw [key pre st ws₀ st₀ hpre] at hr
  exact Except.noConfusion hr

set_option maxRecDepth 10000 in
/-- Witness for C7: after the greet entry succeeds, an entry with a null
input schema aborts the whole construction with the unsupported-schema
error. -/
theorem c7_error_propagation_witness :
    createMcpToolFunctions exCompile exAsSchema
        ([("greet", some greetTool)] ++ ("bad", some badTool) :: []) exState
      = .error (.error "Tool input schema is not a supported schema.")
    ∧ ∀ r, createMcpToolFunctions exCompile exAsSchema
        ([("greet", some greetTool)] ++ ("bad", some badTool) :: []) exState
          ≠ .ok r :=
  c7_error_propagation exCompile exAsSchema [("greet", some greetTool)]
    "bad" badTool [] exState [("greet", greetWrapper)]
    { cache := [(0, greetValidator)], compileCount := 1 } rfl rfl

end McpToTs
